import Mathlib

/-!
Verification of the core of `src/html/VisualFotScript.js`: the hand-rolled
`OBJLoader.parse` mesh ingestion routine and the `OrbitControls` orbit-camera
controller, shallowly embedded in Lean.

Modelling conventions:
* JavaScript numbers (IEEE doubles) are idealised as exact rationals (`ℚ`);
  decimal literals in the source are taken at their decimal value.  `NaN` is
  modelled as `none : Option ℚ` in the mesh pools, since in the parser `NaN`
  arises only from failed `parseFloat`/`parseInt` calls and is propagated but
  never branched on except by `≥`/`<` comparisons (which are false on `NaN`,
  matching the `Option` model).
* Strings are processed as `List Char`; the required JS string primitives
  (`split`, `trim`, `startsWith`, `substring`, split on `/\s+/`) are
  re-implemented structurally below so that they mirror the JS semantics on
  the inputs the parser feeds them.
* `Math.PI` is the IEEE double nearest π, an exact rational, given below.
-/

namespace VisualFot

/-- The whitespace characters relevant to the source's `trim` and `/\s+/`
splits (space, tab, newline, carriage return). -/
def jsIsSpace (c : Char) : Bool :=
  c = ' ' || c = '\t' || c = '\n' || c = '\r'

/-- JS `String.prototype.split(sep)` with a single-character separator:
always returns at least one (possibly empty) field. -/
def splitOnChar (sep : Char) : List Char → List (List Char)
  | [] => [[]]
  | c :: cs =>
    match splitOnChar sep cs with
    | [] => [[]]
    | g :: gs => if c = sep then [] :: g :: gs else (c :: g) :: gs

/-- JS `String.prototype.trim` (leading and trailing whitespace removed). -/
def trimChars (s : List Char) : List Char :=
  ((s.dropWhile jsIsSpace).reverse.dropWhile jsIsSpace).reverse

/-- Whether `s` starts with the pattern `p` (JS `String.prototype.startsWith`). -/
def startsWithChars : List Char → List Char → Bool
  | [], _ => true
  | _ :: _, [] => false
  | p :: ps, c :: cs => p = c && startsWithChars ps cs

/-- Helper for `wordsChars`: accumulates the current (reversed) token. -/
def wordsAux : List Char → List Char → List (List Char)
  | [], acc => if acc.isEmpty then [] else [acc.reverse]
  | c :: cs, acc =>
    if jsIsSpace c then
      if acc.isEmpty then wordsAux cs [] else acc.reverse :: wordsAux cs []
    else wordsAux cs (c :: acc)

/-- JS `s.split(/\s+/)` for a trimmed, non-empty `s`: the list of maximal
non-whitespace runs.  (The parser only ever applies this split to trimmed
non-empty lines, where this equivalence is exact.) -/
def wordsChars (s : List Char) : List (List Char) :=
  wordsAux s []

/-- Numeric value of a digit run (most significant first). -/
def digitsToNat (ds : List Char) : ℕ :=
  ds.foldl (fun a c => 10 * a + (c.toNat - 48)) 0

/-- Sign prefix of a JS numeric literal: consumes at most one `+`/`-`. -/
def readSign : List Char → (Bool × List Char)
  | '-' :: r => (true, r)
  | '+' :: r => (false, r)
  | s => (false, s)

/-- Exponent part after `e`/`E` in a JS float literal: optional sign then
digits; if no digits follow, the exponent part is not a valid suffix of the
literal and contributes 0 (JS `parseFloat("1e")` is `1`). -/
def readExp (s : List Char) : ℤ :=
  let (neg, s1) := readSign s
  let ds := s1.takeWhile Char.isDigit
  if ds.isEmpty then 0
  else if neg then -(digitsToNat ds : ℤ) else (digitsToNat ds : ℤ)

/-- Model of JS `parseFloat`: skip leading whitespace, read an optional sign,
an integer digit run, an optional fraction, and an optional exponent; the
longest valid prefix is converted and trailing garbage is ignored.  `none`
models `NaN` (no valid numeric prefix).  Non-finite literals (`Infinity`) and
hex forms are not modelled; no claim involves them. -/
def jsParseFloat (s : List Char) : Option ℚ :=
  let s0 := s.dropWhile jsIsSpace
  let (neg, s1) := readSign s0
  let intDs := s1.takeWhile Char.isDigit
  let s2 := s1.dropWhile Char.isDigit
  let (fracDs, s3) :=
    match s2 with
    | '.' :: r => (r.takeWhile Char.isDigit, r.dropWhile Char.isDigit)
    | _ => ([], s2)
  if intDs.isEmpty && fracDs.isEmpty then none
  else
    let e : ℤ :=
      match s3 with
      | c :: r => if c = 'e' || c = 'E' then readExp r else 0
      | [] => 0
    let mant : ℚ := (digitsToNat intDs : ℚ) + (digitsToNat fracDs : ℚ) / 10 ^ fracDs.length
    some ((if neg then (-1 : ℚ) else 1) * mant * 10 ^ e)

/-- Model of JS `parseInt` (radix 10): skip leading whitespace, read an
optional sign and the longest run of decimal digits; `none` models `NaN`.
The `0x` hex form is not modelled; no claim involves it. -/
def jsParseInt (s : List Char) : Option ℤ :=
  let s0 := s.dropWhile jsIsSpace
  let (neg, s1) := readSign s0
  let ds := s1.takeWhile Char.isDigit
  if ds.isEmpty then none
  else if neg then some (-(digitsToNat ds : ℤ)) else some (digitsToNat ds : ℤ)

namespace OBJLoader

/-- The four accumulators filled by the line-scanning phase of
`OBJLoader.parse` (lines 244-286 of `VisualFotScript.js`): the vertex,
normal and UV pools as flat scalar sequences, and the raw face-corner
tokens. -/
structure ObjPools where
  vertices : List (Option ℚ)
  normals : List (Option ℚ)
  uvs : List (Option ℚ)
  faces : List (List Char)
  deriving DecidableEq

/-- The empty accumulators at the start of `parse`. -/
def emptyPools : ObjPools := ⟨[], [], [], []⟩

/-- One iteration of the `lines.forEach` scan of `OBJLoader.parse`
(lines 253-286): trim the line, dispatch on its prefix, and append to the
matching pool.  `v `/`vn ` push 3 parsed floats, `vt ` pushes the parsed U
and the flipped `1.0 - v` V coordinate, `f ` appends the whitespace-split
corner tokens of the rest of the line; other lines are ignored.  (The
progress-reporting `updateLoadingDetails` calls are UI side effects with no
bearing on the result and are not modelled.) -/
def scanLine (p : ObjPools) (raw : List Char) : ObjPools :=
  let line := trimChars raw
  if startsWithChars ['v', ' '] line then
    let parts := wordsChars line
    { p with vertices := p.vertices ++
        [jsParseFloat (parts.getD 1 []), jsParseFloat (parts.getD 2 []),
         jsParseFloat (parts.getD 3 [])] }
  else if startsWithChars ['v', 'n', ' '] line then
    let parts := wordsChars line
    { p with normals := p.normals ++
        [jsParseFloat (parts.getD 1 []), jsParseFloat (parts.getD 2 []),
         jsParseFloat (parts.getD 3 [])] }
  else if startsWithChars ['v', 't', ' '] line then
    let parts := wordsChars line
    { p with uvs := p.uvs ++
        [jsParseFloat (parts.getD 1 []),
         (jsParseFloat (parts.getD 2 [])).map (fun v => 1 - v)] }
  else if startsWithChars ['f', ' '] line then
    { p with faces := p.faces ++ wordsChars (trimChars (line.drop 2)) }
  else p

/-- The output buffers of `OBJLoader.parse` (lines 291-293): flat position,
normal and UV arrays, corner-aligned. -/
structure MeshBuffers where
  positions : List (Option ℚ)
  normalsArray : List (Option ℚ)
  uvsArray : List (Option ℚ)
  deriving DecidableEq

/-- Position contribution of one face-corner token (lines 301-306): split the
token on `/`, parse the 1-based position index, convert to a 0-based scalar
offset `vIdx = (n-1)*3`, and if it is in range push the three coordinates;
otherwise push nothing.  A failed `parseInt` gives `NaN`, whose comparisons
are false, hence also pushes nothing. -/
def cornerPos (vertices : List (Option ℚ)) (tok : List Char) : List (Option ℚ) :=
  let indices := splitOnChar '/' tok
  match jsParseInt (indices.getD 0 []) with
  | none => []
  | some n =>
    let vIdx : ℤ := (n - 1) * 3
    if 0 ≤ vIdx ∧ vIdx < (vertices.length : ℤ) then
      [vertices.getD vIdx.toNat none, vertices.getD (vIdx.toNat + 1) none,
       vertices.getD (vIdx.toNat + 2) none]
    else []

/-- UV contribution of one face-corner token (lines 308-313): only when the
second `/`-field is present and non-empty; pushes the two pool scalars at
`uvIdx = (n-1)*2` when in range. -/
def cornerUV (uvs : List (Option ℚ)) (tok : List Char) : List (Option ℚ) :=
  let indices := splitOnChar '/' tok
  match indices.get? 1 with
  | none => []
  | some s =>
    if s.isEmpty then []
    else
      match jsParseInt s with
      | none => []
      | some n =>
        let uvIdx : ℤ := (n - 1) * 2
        if 0 ≤ uvIdx ∧ uvIdx < (uvs.length : ℤ) then
          [uvs.getD uvIdx.toNat none, uvs.getD (uvIdx.toNat + 1) none]
        else []

/-- Normal contribution of one face-corner token (lines 315-320), analogous
to `cornerUV` with stride 3. -/
def cornerNormal (normals : List (Option ℚ)) (tok : List Char) : List (Option ℚ) :=
  let indices := splitOnChar '/' tok
  match indices.get? 2 with
  | none => []
  | some s =>
    if s.isEmpty then []
    else
      match jsParseInt s with
      | none => []
      | some n =>
        let nIdx : ℤ := (n - 1) * 3
        if 0 ≤ nIdx ∧ nIdx < (normals.length : ℤ) then
          [normals.getD nIdx.toNat none, normals.getD (nIdx.toNat + 1) none,
           normals.getD (nIdx.toNat + 2) none]
        else []

/-- The face-resolution loop of `parse` (lines 295-322): `for (i += 3)` with
an inner loop over the 3 corners `faces[i+j]`.  When the number of corner
tokens is not a multiple of 3 the inner loop reads `faces[i+j]` past the end
of the array and `undefined.split('/')` throws a `TypeError`; `none` models
that thrown exception (the partially built buffers are discarded by the
`catch` in `OBJLoader.load`). -/
def buildBuffers (p : ObjPools) : List (List Char) → MeshBuffers → Option MeshBuffers
  | [], acc => some acc
  | a :: b :: c :: rest, acc =>
    buildBuffers p rest
      { positions := acc.positions ++ cornerPos p.vertices a ++ cornerPos p.vertices b ++
          cornerPos p.vertices c,
        normalsArray := acc.normalsArray ++ cornerNormal p.normals a ++
          cornerNormal p.normals b ++ cornerNormal p.normals c,
        uvsArray := acc.uvsArray ++ cornerUV p.uvs a ++ cornerUV p.uvs b ++
          cornerUV p.uvs c }
  | _, _ => none

/-- The scanning phase of `OBJLoader.parse`: split the text on newlines and
fold `scanLine` over the lines. -/
def scanText (text : String) : ObjPools :=
  (splitOnChar '\n' text.data).foldl scanLine emptyPools

/-- `OBJLoader.parse` (lines 243-350), restricted to its observable output:
the flat buffers handed to `THREE.Float32BufferAttribute`.  `none` models a
thrown exception (caught by `OBJLoader.load`, which then invokes the error
callback instead of delivering a mesh).  The material/group wrapping and the
`computeVertexNormals` fallback are library calls downstream of the buffers
and are outside the claims checked here. -/
def parse (text : String) : Option MeshBuffers :=
  let pools := scanText text
  buildBuffers pools pools.faces ⟨[], [], []⟩

/-- Contribution of a single line to the vertex pool (derived view of the
`v ` branch of `scanLine`). -/
def lineVerts (raw : List Char) : List (Option ℚ) :=
  if startsWithChars ['v', ' '] (trimChars raw) then
    [jsParseFloat ((wordsChars (trimChars raw)).getD 1 []),
     jsParseFloat ((wordsChars (trimChars raw)).getD 2 []),
     jsParseFloat ((wordsChars (trimChars raw)).getD 3 [])]
  else []

/-- Contribution of a single line to the normal pool. -/
def lineNorms (raw : List Char) : List (Option ℚ) :=
  if startsWithChars ['v', ' '] (trimChars raw) then []
  else if startsWithChars ['v', 'n', ' '] (trimChars raw) then
    [jsParseFloat ((wordsChars (trimChars raw)).getD 1 []),
     jsParseFloat ((wordsChars (trimChars raw)).getD 2 []),
     jsParseFloat ((wordsChars (trimChars raw)).getD 3 [])]
  else []

/-- Contribution of a single line to the UV pool: the parsed U and the
flipped `1.0 - v` V coordinate. -/
def lineUVs (raw : List Char) : List (Option ℚ) :=
  if startsWithChars ['v', ' '] (trimChars raw) then []
  else if startsWithChars ['v', 'n', ' '] (trimChars raw) then []
  else if startsWithChars ['v', 't', ' '] (trimChars raw) then
    [jsParseFloat ((wordsChars (trimChars raw)).getD 1 []),
     (jsParseFloat ((wordsChars (trimChars raw)).getD 2 [])).map (fun v => 1 - v)]
  else []

/-- Contribution of a single line to the face-corner token list. -/
def lineFaces (raw : List Char) : List (List Char) :=
  if startsWithChars ['v', ' '] (trimChars raw) then []
  else if startsWithChars ['v', 'n', ' '] (trimChars raw) then []
  else if startsWithChars ['v', 't', ' '] (trimChars raw) then []
  else if startsWithChars ['f', ' '] (trimChars raw) then
    wordsChars (trimChars ((trimChars raw).drop 2))
  else []

/-- Decidable form of "this corner token's 1-based position index resolves
into the vertex pool": `parseInt` succeeds on the first `/`-field and the
derived scalar offset `(n-1)*3` is in range. -/
def posIndexInRange (vertices : List (Option ℚ)) (tok : List Char) : Bool :=
  match jsParseInt ((splitOnChar '/' tok).getD 0 []) with
  | none => false
  | some n => decide (0 ≤ (n - 1) * 3 ∧ (n - 1) * 3 < (vertices.length : ℤ))

/-- Outcome of the success path of `OBJLoader.load` (lines 226-237 of
`VisualFotScript.js`): on HTTP 200 the response text is parsed inside
`try`/`catch`; a thrown exception reaches the error callback (`failed`),
otherwise the mesh is delivered to the completion callback (`loaded`). -/
inductive LoadResult where
  | loaded (m : MeshBuffers)
  | failed
  deriving DecidableEq

/-- The result delivered by `OBJLoader.load` for a successfully transferred
response text: `parse` throws only in the face-resolution loop (modelled by
`parse _ = none`), in which case the error callback fires. -/
def loadDeliver (responseText : String) : LoadResult :=
  match parse responseText with
  | some m => .loaded m
  | none => .failed

/-- Decidable check that one source line contains a malformed numeric token
in a `v`/`vn`/`vt`/`f` record: one of the fields consumed by the parser at
that record fails `parseFloat` (respectively `parseInt` for the position
index of a face corner). -/
def lineHasMalformedNumber (raw : List Char) : Bool :=
  let line := trimChars raw
  let parts := wordsChars line
  if startsWithChars ['v', ' '] line then
    (jsParseFloat (parts.getD 1 [])).isNone || (jsParseFloat (parts.getD 2 [])).isNone ||
      (jsParseFloat (parts.getD 3 [])).isNone
  else if startsWithChars ['v', 'n', ' '] line then
    (jsParseFloat (parts.getD 1 [])).isNone || (jsParseFloat (parts.getD 2 [])).isNone ||
      (jsParseFloat (parts.getD 3 [])).isNone
  else if startsWithChars ['v', 't', ' '] line then
    (jsParseFloat (parts.getD 1 [])).isNone || (jsParseFloat (parts.getD 2 [])).isNone
  else if startsWithChars ['f', ' '] line then
    (wordsChars (trimChars (line.drop 2))).any
      (fun tok => (jsParseInt ((splitOnChar '/' tok).getD 0 [])).isNone)
  else false

/-- Decidable check that some line of the mesh text contains a malformed
numeric token in a `v`/`vn`/`vt`/`f` record. -/
def hasMalformedNumber (text : String) : Bool :=
  (splitOnChar '\n' text.data).any lineHasMalformedNumber

end OBJLoader

/-- The IEEE double `Math.PI` (the double nearest π), as an exact rational:
`7074237752028440 × 2⁻⁵¹`. -/
def mathPI : ℚ := 884279719003555 / 281474976710656

namespace OrbitControls

/-- The `EPS` constant of `THREE.Spherical.makeSafe` (`0.000001`), the
library routine called on line 181 to keep the polar angle away from the
poles. -/
def sphericalEPS : ℚ := 1 / 1000000

/-- A 2-component vector (`THREE.Vector2`), used for pointer positions. -/
structure Vec2 where
  x : ℚ
  y : ℚ
  deriving DecidableEq

/-- A 3-component vector (`THREE.Vector3`). -/
structure Vec3 where
  x : ℚ
  y : ℚ
  z : ℚ
  deriving DecidableEq

/-- Componentwise vector sum (`THREE.Vector3.add`). -/
def Vec3.add (a b : Vec3) : Vec3 := ⟨a.x + b.x, a.y + b.y, a.z + b.z⟩

/-- Scalar multiple of a vector (`THREE.Vector3.multiplyScalar`). -/
def Vec3.smul (k : ℚ) (a : Vec3) : Vec3 := ⟨k * a.x, k * a.y, k * a.z⟩

/-- The interaction-mode state machine of `OrbitControls` (line 29:
`STATE = { NONE: -1, ROTATE: 0, DOLLY: 1, PAN: 2 }`; `DOLLY` is declared but
never entered by the handlers). -/
inductive CState where
  | NONE
  | ROTATE
  | DOLLY
  | PAN
  deriving DecidableEq

/-- The observable state of one `OrbitControls` instance: the public
configuration fields set in the constructor (lines 16-26), the closure-local
interaction state (lines 31-41), and the camera pose.

The camera pose is carried in spherical form around `target`: `update`
(lines 168-207) recomputes `spherical` from the Cartesian camera position
each frame via `Spherical.setFromVector3` and writes the position back via
`setFromSpherical`; for a positive radius and a polar angle in `[0, π]`
(guaranteed after the first `makeSafe`) that round trip is the identity on
`(radius, phi)` in exact arithmetic, and recovers `theta` up to a multiple
of `2π`; the model therefore keeps `(radius, theta, phi)` directly, with
`theta` unreduced (no claim depends on the `2π` wrap-around of `atan2`).

`camCol0`/`camCol1` stand for the first two columns of `camera.matrix`
(the camera's right and up basis vectors) read by the pan handlers, and
`tanHalfFov` for `Math.tan((camera.fov/2)·π/180)`; both are per-frame camera
constants imported as state, since no claim constrains their values. -/
structure Orbit where
  minDistance : ℚ
  maxDistance : ℚ
  minPolarAngle : ℚ
  maxPolarAngle : ℚ
  enableDamping : Bool
  dampingFactor : ℚ
  enablePan : Bool
  autoRotate : Bool
  autoRotateSpeed : ℚ
  enabled : Bool
  state : CState
  radius : ℚ
  theta : ℚ
  phi : ℚ
  dTheta : ℚ
  dPhi : ℚ
  scale : ℚ
  panOffset : Vec3
  target : Vec3
  rotateStart : Vec2
  panStart : Vec2
  clientHeight : ℚ
  camCol0 : Vec3
  camCol1 : Vec3
  tanHalfFov : ℚ
  deriving DecidableEq

/-- `rotateLeft` (lines 43-45): `sphericalDelta.theta -= angle`. -/
def rotateLeft (angle : ℚ) (s : Orbit) : Orbit :=
  { s with dTheta := s.dTheta - angle }

/-- `rotateUp` (lines 47-49): `sphericalDelta.phi -= angle`. -/
def rotateUp (angle : ℚ) (s : Orbit) : Orbit :=
  { s with dPhi := s.dPhi - angle }

/-- `panLeft` (lines 51-56): add `-distance` times the camera matrix's
column 0 to `panOffset`. -/
def panLeft (distance : ℚ) (s : Orbit) : Orbit :=
  { s with panOffset := s.panOffset.add (Vec3.smul (-distance) s.camCol0) }

/-- `panUp` (lines 58-63): add `distance` times the camera matrix's
column 1 to `panOffset`. -/
def panUp (distance : ℚ) (s : Orbit) : Orbit :=
  { s with panOffset := s.panOffset.add (Vec3.smul distance s.camCol1) }

/-- `pan` (lines 65-73): the offset length `|position − target|` is the
current orbit radius; scale by `tan(fov/2)` and the viewport height. -/
def pan (deltaX deltaY : ℚ) (s : Orbit) : Orbit :=
  let targetDistance := s.radius * s.tanHalfFov
  panUp (2 * deltaY * targetDistance / s.clientHeight)
    (panLeft (2 * deltaX * targetDistance / s.clientHeight) s)

/-- `dollyIn` (lines 75-77): `scale /= dollyScale`. -/
def dollyIn (dollyScale : ℚ) (s : Orbit) : Orbit :=
  { s with scale := s.scale / dollyScale }

/-- `dollyOut` (lines 79-81): `scale *= dollyScale`. -/
def dollyOut (dollyScale : ℚ) (s : Orbit) : Orbit :=
  { s with scale := s.scale * dollyScale }

/-- The per-frame `update` closure (lines 168-207): recover the spherical
pose, inject the idle auto-rotation increment, consume the pending deltas,
clamp the polar angle to `[minPolarAngle, maxPolarAngle]` and then to the
pole-safe band (`Spherical.makeSafe`), scale and clamp the radius, move the
target by `panOffset`, decay (or zero) the pending deltas, and reset
`scale` to 1.  The final Cartesian write-back and `lookAt` are represented
by the spherical pose itself (see `Orbit`). -/
def update (s : Orbit) : Orbit :=
  let s1 :=
    if s.autoRotate && s.state == CState.NONE then
      rotateLeft (2 * mathPI / 60 / 60 * s.autoRotateSpeed) s
    else s
  let theta1 := s1.theta + s1.dTheta
  let phi1 := max s1.minPolarAngle (min s1.maxPolarAngle (s1.phi + s1.dPhi))
  let phi2 := max sphericalEPS (min (mathPI - sphericalEPS) phi1)
  let radius1 := max s1.minDistance (min s1.maxDistance (s1.radius * s1.scale))
  let target1 := s1.target.add s1.panOffset
  if s1.enableDamping then
    { s1 with
      theta := theta1, phi := phi2, radius := radius1, target := target1,
      dTheta := s1.dTheta * (1 - s1.dampingFactor),
      dPhi := s1.dPhi * (1 - s1.dampingFactor),
      panOffset := Vec3.smul (1 - s1.dampingFactor) s1.panOffset,
      scale := 1 }
  else
    { s1 with
      theta := theta1, phi := phi2, radius := radius1, target := target1,
      dTheta := 0, dPhi := 0, panOffset := ⟨0, 0, 0⟩, scale := 1 }

/-- `handleMouseDownRotate` (lines 83-85): capture the pointer position. -/
def handleMouseDownRotate (ex ey : ℚ) (s : Orbit) : Orbit :=
  { s with rotateStart := ⟨ex, ey⟩ }

/-- `handleMouseDownPan` (lines 87-89). -/
def handleMouseDownPan (ex ey : ℚ) (s : Orbit) : Orbit :=
  { s with panStart := ⟨ex, ey⟩ }

/-- The accumulation step of `handleMouseMoveRotate` (lines 92-97, before
the `scope.update()` call on line 98): `rotateDelta` is the pixel delta
scaled by `0.5` (`multiplyScalar(0.5)` on line 93); convert with
`2π/clientHeight` and accumulate negated via `rotateLeft`/`rotateUp`; then
advance the reference position. -/
def moveRotateAccum (ex ey : ℚ) (s : Orbit) : Orbit :=
  let rotateDeltaX := (ex - s.rotateStart.x) * (1 / 2)
  let rotateDeltaY := (ey - s.rotateStart.y) * (1 / 2)
  let s1 := rotateLeft (2 * mathPI * rotateDeltaX / s.clientHeight) s
  let s2 := rotateUp (2 * mathPI * rotateDeltaY / s1.clientHeight) s1
  { s2 with rotateStart := ⟨ex, ey⟩ }

/-- `handleMouseMoveRotate` (lines 91-99): accumulation then `update`. -/
def handleMouseMoveRotate (ex ey : ℚ) (s : Orbit) : Orbit :=
  update (moveRotateAccum ex ey s)

/-- The accumulation step of `handleMouseMovePan` (lines 102-105). -/
def movePanAccum (ex ey : ℚ) (s : Orbit) : Orbit :=
  let panDeltaX := (ex - s.panStart.x) * (1 / 2)
  let panDeltaY := (ey - s.panStart.y) * (1 / 2)
  { pan panDeltaX panDeltaY s with panStart := ⟨ex, ey⟩ }

/-- `handleMouseMovePan` (lines 101-107): accumulation then `update`. -/
def handleMouseMovePan (ex ey : ℚ) (s : Orbit) : Orbit :=
  update (movePanAccum ex ey s)

/-- The dolly branch of `handleMouseWheel` (lines 110-114, before the
`scope.update()` call on line 115): negative `deltaY` runs
`dollyOut(0.95)`, positive `deltaY` runs `dollyIn(0.95)`. -/
def wheelDolly (deltaY : ℚ) (s : Orbit) : Orbit :=
  if deltaY < 0 then dollyOut (95 / 100) s
  else if 0 < deltaY then dollyIn (95 / 100) s
  else s

/-- `handleMouseWheel` (lines 109-116): dolly branch then `update`. -/
def handleMouseWheel (deltaY : ℚ) (s : Orbit) : Orbit :=
  update (wheelDolly deltaY s)

/-- The pointer/wheel events routed to the controller by the DOM listeners
registered on lines 154-155 (document-level move/up listeners are attached
on button press and removed on release; a move event with `state = NONE`
is observationally a no-op either way). -/
inductive OrbitEvent where
  | mouseDown (button : ℕ) (x y : ℚ)
  | mouseMove (x y : ℚ)
  | mouseUp
  | wheel (deltaY : ℚ)
  deriving DecidableEq

/-- `onMouseDown` (lines 118-130): guarded by `enabled`; button 0 enters
`ROTATE`, button 2 enters `PAN`, capturing the pointer position. -/
def onMouseDown (button : ℕ) (ex ey : ℚ) (s : Orbit) : Orbit :=
  if !s.enabled then s
  else if button = 0 then { handleMouseDownRotate ex ey s with state := CState.ROTATE }
  else if button = 2 then { handleMouseDownPan ex ey s with state := CState.PAN }
  else s

/-- `onMouseMove` (lines 132-140): guarded by `enabled`; dispatch on the
interaction state. -/
def onMouseMove (ex ey : ℚ) (s : Orbit) : Orbit :=
  if !s.enabled then s
  else if s.state = CState.ROTATE then handleMouseMoveRotate ex ey s
  else if s.state = CState.PAN then handleMouseMovePan ex ey s
  else s

/-- `onMouseUp` (lines 142-146): unconditionally return to `NONE`. -/
def onMouseUp (s : Orbit) : Orbit :=
  { s with state := CState.NONE }

/-- `onMouseWheel` (lines 148-152): guarded by `enabled`. -/
def onMouseWheel (deltaY : ℚ) (s : Orbit) : Orbit :=
  if !s.enabled then s else handleMouseWheel deltaY s

/-- Deliver one event to the controller. -/
def applyEvent (s : Orbit) : OrbitEvent → Orbit
  | .mouseDown b x y => onMouseDown b x y s
  | .mouseMove x y => onMouseMove x y s
  | .mouseUp => onMouseUp s
  | .wheel d => onMouseWheel d s

/-- Deliver a sequence of events in order. -/
def run (s : Orbit) (evs : List OrbitEvent) : Orbit :=
  evs.foldl applyEvent s

/-- `n` consecutive `update()` calls with no intervening input. -/
def iterUpdate : ℕ → Orbit → Orbit
  | 0, s => s
  | n + 1, s => update (iterUpdate n s)

/-- Magnitude of the pending spherical delta (azimuthal and polar
components), measured in the 1-norm. -/
def pendingMag (s : Orbit) : ℚ :=
  |s.dTheta| + |s.dPhi|

/-- A concrete controller state with the constructor defaults of lines
16-26 (matching the values re-assigned in `init`, lines 380-388), a 100px
viewport, canonical camera basis columns, and an arbitrary concrete pose;
used to instantiate hypotheses of the claims at a checkable input. -/
def sampleOrbit : Orbit where
  minDistance := 1 / 2
  maxDistance := 1000
  minPolarAngle := 0
  maxPolarAngle := mathPI
  enableDamping := true
  dampingFactor := 8 / 100
  enablePan := true
  autoRotate := true
  autoRotateSpeed := 3 / 10
  enabled := true
  state := CState.NONE
  radius := 5
  theta := 1
  phi := 1
  dTheta := 0
  dPhi := 0
  scale := 1
  panOffset := ⟨0, 0, 0⟩
  target := ⟨0, 0, 0⟩
  rotateStart := ⟨0, 0⟩
  panStart := ⟨0, 0⟩
  clientHeight := 100
  camCol0 := ⟨1, 0, 0⟩
  camCol1 := ⟨0, 1, 0⟩
  tanHalfFov := 2 / 5


end OrbitControls

namespace OBJLoader

theorem scanLine_eq (p : ObjPools) (raw : List Char) :
    scanLine p raw =
      ⟨p.vertices ++ lineVerts raw, p.normals ++ lineNorms raw,
       p.uvs ++ lineUVs raw, p.faces ++ lineFaces raw⟩ := by
  unfold scanLine lineVerts lineNorms lineUVs lineFaces
  by_cases h1 : startsWithChars ['v', ' '] (trimChars raw) = true <;>
    by_cases h2 : startsWithChars ['v', 'n', ' '] (trimChars raw) = true <;>
      by_cases h3 : startsWithChars ['v', 't', ' '] (trimChars raw) = true <;>
        by_cases h4 : startsWithChars ['f', ' '] (trimChars raw) = true <;>
          simp [h1, h2, h3, h4]

/-- The scanning fold decomposes pool-wise into per-line contributions. -/
theorem foldl_scanLine_eq (ls : List (List Char)) (p : ObjPools) :
    ls.foldl scanLine p =
      ⟨p.vertices ++ ls.flatMap lineVerts, p.normals ++ ls.flatMap lineNorms,
       p.uvs ++ ls.flatMap lineUVs, p.faces ++ ls.flatMap lineFaces⟩ := by
  induction ls generalizing p with
  | nil => simp
  | cons raw rest ih =>
    simp only [List.foldl_cons, List.flatMap_cons, scanLine_eq, ih]
    simp [List.append_assoc]

theorem scanText_eq (text : String) :
    scanText text =
      ⟨(splitOnChar '\n' text.data).flatMap lineVerts,
       (splitOnChar '\n' text.data).flatMap lineNorms,
       (splitOnChar '\n' text.data).flatMap lineUVs,
       (splitOnChar '\n' text.data).flatMap lineFaces⟩ := by
  unfold scanText emptyPools
  rw [foldl_scanLine_eq]
  simp

/-- If the number of face-corner tokens is a multiple of 3, the resolution
loop never reads past the end of the token array and returns buffers. -/
theorem buildBuffers_total (p : ObjPools) :
    ∀ fs : List (List Char), 3 ∣ fs.length →
      ∀ acc, ∃ m, buildBuffers p fs acc = some m
  | [], _, acc => ⟨acc, rfl⟩
  | [a], h, _ => absurd h (by simp +decide)
  | [a, b], h, _ => absurd h (by simp +decide)
  | a :: b :: c :: rest, h, acc => by
    have hr : 3 ∣ rest.length := by
      rcases h with ⟨k, hk⟩
      simp only [List.length_cons] at hk
      exact ⟨k - 1, by omega⟩
    exact buildBuffers_total p rest hr _

/-- The successful output of the resolution loop is, buffer-wise, the
concatenation of the per-corner contributions, in corner order. -/
theorem buildBuffers_eq (p : ObjPools) :
    ∀ (fs : List (List Char)) (acc m : MeshBuffers),
      buildBuffers p fs acc = some m →
      m.positions = acc.positions ++ fs.flatMap (cornerPos p.vertices) ∧
      m.normalsArray = acc.normalsArray ++ fs.flatMap (cornerNormal p.normals) ∧
      m.uvsArray = acc.uvsArray ++ fs.flatMap (cornerUV p.uvs)
  | [], acc, m, h => by
    cases h
    simp [buildBuffers]
  | [a], acc, m, h => by simp [buildBuffers] at h
  | [a, b], acc, m, h => by simp [buildBuffers] at h
  | a :: b :: c :: rest, acc, m, h => by
    have := buildBuffers_eq p rest _ m h
    simpa [List.append_assoc, List.flatMap_cons] using this

theorem cornerPos_length_of_inRange (vertices : List (Option ℚ)) (tok : List Char)
    (h : posIndexInRange vertices tok = true) : (cornerPos vertices tok).length = 3 := by
  unfold posIndexInRange at h
  split at h
  · simp at h
  · next n heq =>
    simp only [cornerPos, heq]
    rw [if_pos (of_decide_eq_true h)]
    rfl

theorem cornerPos_eq_nil_of_not_inRange (vertices : List (Option ℚ)) (tok : List Char)
    (h : posIndexInRange vertices tok = false) : cornerPos vertices tok = [] := by
  unfold posIndexInRange at h
  split at h
  · next heq => simp only [cornerPos, heq]
  · next n heq =>
    simp only [cornerPos, heq]
    rw [if_neg (of_decide_eq_false h)]

/-- A non-positive parsed position index (0 or an OBJ-style negative
relative index) always fails the range check: `(n-1)*3 < 0`. -/
theorem cornerPos_eq_nil_of_nonpos (vertices : List (Option ℚ)) (tok : List Char)
    (n : ℤ) (hn : jsParseInt ((splitOnChar '/' tok).getD 0 []) = some n)
    (hle : n ≤ 0) : cornerPos vertices tok = [] := by
  have hno : ¬(0 ≤ (n - 1) * 3 ∧ (n - 1) * 3 < (vertices.length : ℤ)) := by
    rintro ⟨h0, -⟩
    omega
  simp only [cornerPos, hn]
  rw [if_neg hno]

theorem flatMap_cornerPos_length (vertices : List (Option ℚ)) (fs : List (List Char))
    (h : ∀ tok ∈ fs, posIndexInRange vertices tok = true) :
    (fs.flatMap (cornerPos vertices)).length = 3 * fs.length := by
  induction fs with
  | nil => simp
  | cons a rest ih =>
    have ha := cornerPos_length_of_inRange vertices a (h a (by simp))
    have hr := ih (fun tok htok => h tok (by simp [htok]))
    simp only [List.flatMap_cons, List.length_append, ha, hr, List.length_cons]
    ring

theorem parse_eq (text : String) :
    parse text = buildBuffers (scanText text) (scanText text).faces ⟨[], [], []⟩ := rfl

theorem startsWithChars_vt_exists (line : List Char)
    (h : startsWithChars ['v', 't', ' '] line = true) :
    ∃ rest, line = 'v' :: 't' :: ' ' :: rest := by
  rcases line with _ | ⟨c1, _ | ⟨c2, _ | ⟨c3, rest⟩⟩⟩ <;>
    simp [startsWithChars] at h
  obtain ⟨h1, h2, h3⟩ := h
  subst h1
  subst h2
  subst h3
  exact ⟨rest, rfl⟩

/-- On a `vt ` line, the pool contribution is the parsed U value and the
flipped `1.0 - v` V value. -/
theorem lineUVs_of_vt (raw : List Char)
    (hvt : startsWithChars ['v', 't', ' '] (trimChars raw) = true) :
    lineUVs raw =
      [jsParseFloat ((wordsChars (trimChars raw)).getD 1 []),
       (jsParseFloat ((wordsChars (trimChars raw)).getD 2 [])).map (fun v => 1 - v)] := by
  obtain ⟨rest, hline⟩ := startsWithChars_vt_exists _ hvt
  unfold lineUVs
  rw [hline]
  simp +decide [startsWithChars]

/-- Every line contributes either nothing or a `(U, 1-V)` pair to the UV
pool, and in the latter case the line is a `vt ` record. -/
theorem lineUVs_shape (raw : List Char) :
    lineUVs raw = [] ∨ ∃ u w, lineUVs raw = [u, w] := by
  unfold lineUVs
  repeat' split
  · exact Or.inl rfl
  · exact Or.inl rfl
  · exact Or.inr ⟨_, _, rfl⟩
  · exact Or.inl rfl

theorem lineUVs_eq_pair (raw : List Char) (u w : Option ℚ)
    (h : lineUVs raw = [u, w]) :
    startsWithChars ['v', 't', ' '] (trimChars raw) = true ∧
    w = (jsParseFloat ((wordsChars (trimChars raw)).getD 2 [])).map (fun v => 1 - v) := by
  unfold lineUVs at h
  split at h
  · simp at h
  · split at h
    · simp at h
    · split at h
      · next hvt =>
        simp only [List.cons.injEq, and_true] at h
        exact ⟨hvt, h.2.symm⟩
      · simp at h

/-- Every corner contributes either nothing or exactly one scalar pair to
the UV output buffer. -/
theorem cornerUV_pairish (uvs : List (Option ℚ)) (tok : List Char) :
    cornerUV uvs tok = [] ∨ ∃ u w, cornerUV uvs tok = [u, w] := by
  simp only [cornerUV]
  repeat' split
  all_goals first
    | exact Or.inl rfl
    | exact Or.inr ⟨_, _, rfl⟩

/-- A successful corner UV resolution reads an even pool offset and its odd
successor, both in bounds when the pool has even length. -/
theorem cornerUV_shape (uvs : List (Option ℚ)) (tok : List Char)
    (heven : 2 ∣ uvs.length) :
    cornerUV uvs tok = [] ∨
    ∃ k : ℕ, 2 * k + 1 < uvs.length ∧
      cornerUV uvs tok = [uvs.getD (2 * k) none, uvs.getD (2 * k + 1) none] := by
  simp only [cornerUV]
  split
  · exact Or.inl rfl
  · split
    · exact Or.inl rfl
    · split
      · exact Or.inl rfl
      · next n heq =>
        split
        · next hcond =>
          obtain ⟨h0, hlt⟩ := hcond
          obtain ⟨q, hq⟩ := heven
          refine Or.inr ⟨(n - 1).toNat, by omega, ?_⟩
          have hk : ((n - 1) * 2).toNat = 2 * (n - 1).toNat := by omega
          rw [hk]
        · exact Or.inl rfl

/-- Concatenating chunks that are empty or pairs yields an even length. -/
theorem length_flatMap_even {α β : Type} (f : α → List β)
    (hshape : ∀ x, f x = [] ∨ ∃ u w, f x = [u, w]) (l : List α) :
    2 ∣ (l.flatMap f).length := by
  induction l with
  | nil => simp
  | cons hd tl ih =>
    rcases hshape hd with h | ⟨u, w, h⟩ <;>
      · rw [List.flatMap_cons, h]
        simp only [List.length_append, List.length_nil, List.length_cons]
        omega

/-- In a concatenation of empty-or-pair chunks, the entries at positions
`2k` and `2k+1` always come from a single chunk. -/
theorem flatMap_pair_chunks {α β : Type} (f : α → List β)
    (hshape : ∀ x, f x = [] ∨ ∃ u w, f x = [u, w]) :
    ∀ (l : List α) (k : ℕ) (a b : β),
      (l.flatMap f)[2 * k]? = some a → (l.flatMap f)[2 * k + 1]? = some b →
      ∃ x ∈ l, f x = [a, b]
  | [], k, a, b, ha, _ => by simp at ha
  | hd :: tl, k, a, b, ha, hb => by
    rcases hshape hd with h0 | ⟨u, w, h2⟩
    · rw [List.flatMap_cons, h0, List.nil_append] at ha hb
      obtain ⟨x, hx, hfx⟩ := flatMap_pair_chunks f hshape tl k a b ha hb
      exact ⟨x, List.mem_cons_of_mem _ hx, hfx⟩
    · rw [List.flatMap_cons, h2] at ha hb
      cases k with
      | zero =>
        simp only [Nat.mul_zero, List.cons_append, List.getElem?_cons_zero,
          List.getElem?_cons_succ, Option.some.injEq, Nat.zero_add] at ha hb
        exact ⟨hd, List.mem_cons_self _ _, by rw [h2, ha, hb]⟩
      | succ k =>
        have e1 : 2 * (k + 1) = 2 * k + 1 + 1 := by ring
        have e2 : 2 * (k + 1) + 1 = 2 * k + 1 + 1 + 1 := by ring
        rw [e1, List.cons_append, List.cons_append, List.getElem?_cons_succ,
          List.getElem?_cons_succ] at ha
        rw [e2, List.cons_append, List.cons_append, List.getElem?_cons_succ,
          List.getElem?_cons_succ] at hb
        obtain ⟨x, hx, hfx⟩ := flatMap_pair_chunks f hshape tl k a b ha hb
        exact ⟨x, List.mem_cons_of_mem _ hx, hfx⟩

theorem getD_in_bounds (l : List (Option ℚ)) (i : ℕ) (h : i < l.length) :
    l[i]? = some (l.getD i none) := by
  simp [List.getD_eq_getElem?_getD, List.getElem?_eq_getElem h]

/-- Claim C1: for every mesh text in which every face corner's 1-based
position index resolves into the vertex pool (and the corner count matches
the pre-triangulated face format, 3 corners per face), `OBJLoader.parse`
produces a position buffer of exactly `3 * 3 * faceTriangleCount` floats;
and for the input with 4 `v` lines and the single face line `f 1 2 3` the
position buffer is exactly the 9 coordinates of source vertices 1, 2, 3 in
order. -/
theorem c1_position_buffer_length :
    (∀ text : String,
        3 ∣ (scanText text).faces.length →
        (∀ tok ∈ (scanText text).faces,
          posIndexInRange (scanText text).vertices tok = true) →
        ∃ m, parse text = some m ∧
          m.positions.length = 3 * 3 * ((scanText text).faces.length / 3)) ∧
    parse "v 1 2 3\nv 4 5 6\nv 7 8 9\nv 10 11 12\nf 1 2 3" =
      some ⟨[some 1, some 2, some 3, some 4, some 5, some 6, some 7, some 8, some 9],
        [], []⟩ := by
  constructor
  · intro text hdvd hres
    obtain ⟨m, hm⟩ := buildBuffers_total (scanText text) _ hdvd ⟨[], [], []⟩
    refine ⟨m, by rw [parse_eq]; exact hm, ?_⟩
    obtain ⟨hp, -, -⟩ := buildBuffers_eq _ _ _ _ hm
    rw [hp]
    simp only [List.nil_append]
    rw [flatMap_cornerPos_length _ _ hres]
    omega
  · with_unfolding_all decide

/-- Witness for C1: the scenario input has 1 triangle, 3 corner tokens, all
in range, and the general statement instantiates on it. -/
theorem c1_position_buffer_length_witness :
    ∃ m, parse "v 1 2 3\nv 4 5 6\nv 7 8 9\nv 10 11 12\nf 1 2 3" = some m ∧
      m.positions.length =
        3 * 3 *
          ((scanText "v 1 2 3\nv 4 5 6\nv 7 8 9\nv 10 11 12\nf 1 2 3").faces.length / 3) :=
  c1_position_buffer_length.1 _ (by with_unfolding_all decide)
    (by with_unfolding_all decide)

/-- Claim C2: for every (pre-triangulated) mesh text, parsing does not
abort: the position buffer is exactly the concatenation of the per-corner
resolutions, in which every corner whose index is out of range contributes
nothing (is dropped silently) while all other corners are resolved; in the
scenario with 3 vertices and the face line `f 1 2 99`, the corner `99` is
out of range and the resulting buffer length 6 is not a multiple of 9. -/
theorem c2_out_of_range_corner_dropped :
    (∀ text : String, 3 ∣ (scanText text).faces.length →
        ∃ m, parse text = some m ∧
          m.positions =
            ((scanText text).faces).flatMap (cornerPos (scanText text).vertices) ∧
          ∀ tok ∈ (scanText text).faces,
            posIndexInRange (scanText text).vertices tok = false →
              cornerPos (scanText text).vertices tok = []) ∧
    (parse "v 1 0 0\nv 0 1 0\nv 0 0 1\nf 1 2 99" =
        some ⟨[some 1, some 0, some 0, some 0, some 1, some 0], [], []⟩ ∧
      posIndexInRange (scanText "v 1 0 0\nv 0 1 0\nv 0 0 1\nf 1 2 99").vertices
          ['9', '9'] = false ∧
      ¬(9 ∣ [some (1 : ℚ), some 0, some 0, some 0, some 1, some 0].length)) := by
  constructor
  · intro text hdvd
    obtain ⟨m, hm⟩ := buildBuffers_total (scanText text) _ hdvd ⟨[], [], []⟩
    obtain ⟨hp, -, -⟩ := buildBuffers_eq _ _ _ _ hm
    exact ⟨m, by rw [parse_eq]; exact hm, by simpa using hp,
      fun tok _ h => cornerPos_eq_nil_of_not_inRange _ tok h⟩
  · refine ⟨?_, ?_, by decide⟩
    · with_unfolding_all decide
    · with_unfolding_all decide

/-- Witness for C2: the general part instantiated at the defect scenario. -/
theorem c2_out_of_range_corner_dropped_witness :
    ∃ m, parse "v 1 0 0\nv 0 1 0\nv 0 0 1\nf 1 2 99" = some m ∧
      m.positions =
        ((scanText "v 1 0 0\nv 0 1 0\nv 0 0 1\nf 1 2 99").faces).flatMap
          (cornerPos (scanText "v 1 0 0\nv 0 1 0\nv 0 0 1\nf 1 2 99").vertices) ∧
      ∀ tok ∈ (scanText "v 1 0 0\nv 0 1 0\nv 0 0 1\nf 1 2 99").faces,
        posIndexInRange (scanText "v 1 0 0\nv 0 1 0\nv 0 0 1\nf 1 2 99").vertices tok =
            false →
          cornerPos (scanText "v 1 0 0\nv 0 1 0\nv 0 0 1\nf 1 2 99").vertices tok = [] :=
  c2_out_of_range_corner_dropped.1 _ (by with_unfolding_all decide)

/-- Claim C3: for every `vt ` line whose V value parses to `v` (in
particular for `v` in `[0,1]`), the value stored in the UV pool for that
line is exactly `1.0 - v`; and every second entry of each UV pair resolved
into the output buffer is the flipped `1.0 - v` value of some `vt ` line of
the source text. -/
theorem c3_uv_flip :
    (∀ (text : String) (raw : List Char),
        raw ∈ splitOnChar '\n' text.data →
        startsWithChars ['v', 't', ' '] (trimChars raw) = true →
        (scanText text).uvs = (splitOnChar '\n' text.data).flatMap lineUVs ∧
        ∀ v : ℚ, jsParseFloat ((wordsChars (trimChars raw)).getD 2 []) = some v →
          0 ≤ v → v ≤ 1 →
          lineUVs raw =
            [jsParseFloat ((wordsChars (trimChars raw)).getD 1 []), some (1 - v)]) ∧
    (∀ (text : String) (m : MeshBuffers) (j : ℕ) (a b : Option ℚ),
        parse text = some m →
        m.uvsArray[2 * j]? = some a → m.uvsArray[2 * j + 1]? = some b →
        ∃ raw ∈ splitOnChar '\n' text.data,
          startsWithChars ['v', 't', ' '] (trimChars raw) = true ∧
          b = (jsParseFloat ((wordsChars (trimChars raw)).getD 2 [])).map
            (fun v => 1 - v) ∧
          ∀ v : ℚ, jsParseFloat ((wordsChars (trimChars raw)).getD 2 []) = some v →
            0 ≤ v → v ≤ 1 → b = some (1 - v)) := by
  constructor
  · intro text raw _hmem hvt
    refine ⟨by rw [scanText_eq], fun v hv _h0 _h1 => ?_⟩
    rw [lineUVs_of_vt raw hvt, hv]
    rfl
  · intro text m j a b hm ha hb
    have hpool : (scanText text).uvs = (splitOnChar '\n' text.data).flatMap lineUVs := by
      rw [scanText_eq]
    have heven : 2 ∣ (scanText text).uvs.length := by
      rw [hpool]
      exact length_flatMap_even _ lineUVs_shape _
    obtain ⟨-, -, huv⟩ :=
      buildBuffers_eq (scanText text) _ _ m (by rw [← parse_eq]; exact hm)
    simp only [huv, List.nil_append] at ha hb
    obtain ⟨tok, -, hcu⟩ := flatMap_pair_chunks _ (cornerUV_pairish (scanText text).uvs)
      (scanText text).faces j a b ha hb
    rcases cornerUV_shape (scanText text).uvs tok heven with hnil | ⟨k, hk, hpair⟩
    · rw [hnil] at hcu
      cases hcu
    · rw [hpair] at hcu
      have hlt2 : 2 * k < (scanText text).uvs.length := by omega
      simp only [List.cons.injEq, and_true] at hcu
      obtain ⟨ha2, hb2⟩ := hcu
      have hga : (scanText text).uvs[2 * k]? = some a := by
        rw [getD_in_bounds _ _ hlt2, ha2]
      have hgb : (scanText text).uvs[2 * k + 1]? = some b := by
        rw [getD_in_bounds _ _ hk, hb2]
      rw [hpool] at hga hgb
      obtain ⟨raw, hraw, hline⟩ := flatMap_pair_chunks _ lineUVs_shape _ k a b hga hgb
      obtain ⟨hvt, hw⟩ := lineUVs_eq_pair raw a b hline
      refine ⟨raw, hraw, hvt, hw, fun v hv _h0 _h1 => ?_⟩
      rw [hw, hv]
      rfl

/-- Witness for C3: in `vt 0.5 0.25` the stored V is `1 - 0.25 = 0.75`, and
the resolved output UV pair of the face `f 1/1 1/1 1/1` carries it. -/
theorem c3_uv_flip_witness :
    lineUVs "vt 0.5 0.25".data =
      [jsParseFloat ((wordsChars (trimChars "vt 0.5 0.25".data)).getD 1 []),
       some (1 - 1 / 4 : ℚ)] ∧
    (∃ raw ∈ splitOnChar '\n' "v 0 0 0\nvt 0.5 0.25\nf 1/1 1/1 1/1".data,
      startsWithChars ['v', 't', ' '] (trimChars raw) = true ∧
      (some (3 / 4 : ℚ) : Option ℚ) =
        (jsParseFloat ((wordsChars (trimChars raw)).getD 2 [])).map (fun v => 1 - v) ∧
      ∀ v : ℚ, jsParseFloat ((wordsChars (trimChars raw)).getD 2 []) = some v →
        0 ≤ v → v ≤ 1 → (some (3 / 4 : ℚ) : Option ℚ) = some (1 - v)) :=
  ⟨(c3_uv_flip.1 "v 0 0 0\nvt 0.5 0.25\nf 1/1 1/1 1/1" "vt 0.5 0.25".data
      (by decide) (by decide)).2 (1 / 4) (by with_unfolding_all decide)
      (by norm_num) (by norm_num),
   c3_uv_flip.2 "v 0 0 0\nvt 0.5 0.25\nf 1/1 1/1 1/1"
      ⟨[some 0, some 0, some 0, some 0, some 0, some 0, some 0, some 0, some 0], [],
        [some (1 / 2), some (3 / 4), some (1 / 2), some (3 / 4), some (1 / 2),
         some (3 / 4)]⟩
      0 (some (1 / 2)) (some (3 / 4)) (by with_unfolding_all decide)
      (by with_unfolding_all decide) (by with_unfolding_all decide)⟩

/-- Claim C4 counterexample: the text `"v x 0 0\nf 1 1 1"` contains a
malformed numeric token (`x` in a `v` record), yet the load succeeds and
delivers a mesh (with `NaN` placeholders) to the completion callback — the
error callback is not invoked, refuting the claimed fatal failure. -/
theorem c4_malformed_counterexample :
    hasMalformedNumber "v x 0 0\nf 1 1 1" = true ∧
    loadDeliver "v x 0 0\nf 1 1 1" =
      .loaded ⟨[none, some 0, some 0, none, some 0, some 0, none, some 0, some 0],
        [], []⟩ := by
  constructor
  · with_unfolding_all decide
  · with_unfolding_all decide

/-- Claim C4 as amended: a malformed numeric token never makes the load
fail; `parseFloat`/`parseInt` return `NaN`, which is stored in the pools
(`v`/`vn`/`vt`) or drops the face corner (`f`), and — whenever the corner
count is a multiple of 3, the only condition on which `parse` can throw —
the completion callback still receives a mesh. -/
theorem c4_malformed_not_fatal (text : String)
    (_hmal : hasMalformedNumber text = true)
    (hdvd : 3 ∣ (scanText text).faces.length) :
    ∃ m, loadDeliver text = .loaded m := by
  obtain ⟨m, hm⟩ := buildBuffers_total (scanText text) _ hdvd ⟨[], [], []⟩
  refine ⟨m, ?_⟩
  unfold loadDeliver
  rw [parse_eq, hm]

/-- Witness for the amended C4 at the counterexample input. -/
theorem c4_malformed_not_fatal_witness :
    ∃ m, loadDeliver "v x 0 0\nf 1 1 1" = .loaded m :=
  c4_malformed_not_fatal _ (by with_unfolding_all decide)
    (by with_unfolding_all decide)

/-- Claim C10: a face-corner token whose position index parses to `n ≤ 0`
(index 0 or an OBJ-style negative relative index) contributes nothing to
the position buffer — the range check `(n-1)*3 ≥ 0` fails — and no error is
raised: on any pre-triangulated text the parse still succeeds. -/
theorem c10_nonpositive_index_dropped :
    (∀ (vertices : List (Option ℚ)) (tok : List Char) (n : ℤ),
        jsParseInt ((splitOnChar '/' tok).getD 0 []) = some n → n ≤ 0 →
        cornerPos vertices tok = []) ∧
    (∀ text : String, 3 ∣ (scanText text).faces.length →
        ∃ m, parse text = some m) := by
  refine ⟨cornerPos_eq_nil_of_nonpos, fun text hdvd => ?_⟩
  obtain ⟨m, hm⟩ := buildBuffers_total (scanText text) _ hdvd ⟨[], [], []⟩
  exact ⟨m, by rw [parse_eq]; exact hm⟩

/-- Witness for C10: index `0` and relative index `-2` are both dropped,
and a text containing them still parses. -/
theorem c10_nonpositive_index_dropped_witness :
    cornerPos [some 1, some 0, some 0] ['0'] = [] ∧
    cornerPos [some 1, some 0, some 0] ['-', '2', '/', '1', '/', '1'] = [] ∧
    (∃ m, parse "v 1 0 0\nf 1 0 -2" = some m) :=
  ⟨c10_nonpositive_index_dropped.1 _ _ 0 (by decide) (by decide),
   c10_nonpositive_index_dropped.1 _ _ (-2) (by decide) (by decide),
   c10_nonpositive_index_dropped.2 _ (by with_unfolding_all decide)⟩

end OBJLoader

namespace OrbitControls

theorem update_phi (s : Orbit) :
    (update s).phi =
      max sphericalEPS (min (mathPI - sphericalEPS)
        (max s.minPolarAngle (min s.maxPolarAngle (s.phi + s.dPhi)))) := by
  simp only [update, rotateLeft]
  split <;> split <;> rfl

theorem update_radius (s : Orbit) :
    (update s).radius =
      max s.minDistance (min s.maxDistance (s.radius * s.scale)) := by
  simp only [update, rotateLeft]
  split <;> split <;> rfl

theorem update_scale (s : Orbit) : (update s).scale = 1 := by
  simp only [update, rotateLeft]
  split <;> split <;> rfl

theorem update_minPolarAngle (s : Orbit) : (update s).minPolarAngle = s.minPolarAngle := by
  simp only [update, rotateLeft]
  split <;> split <;> rfl

theorem update_maxPolarAngle (s : Orbit) : (update s).maxPolarAngle = s.maxPolarAngle := by
  simp only [update, rotateLeft]
  split <;> split <;> rfl

theorem update_minDistance (s : Orbit) : (update s).minDistance = s.minDistance := by
  simp only [update, rotateLeft]
  split <;> split <;> rfl

theorem update_maxDistance (s : Orbit) : (update s).maxDistance = s.maxDistance := by
  simp only [update, rotateLeft]
  split <;> split <;> rfl

theorem update_enableDamping (s : Orbit) : (update s).enableDamping = s.enableDamping := by
  simp only [update, rotateLeft]
  split <;> split <;> rfl

theorem update_dampingFactor (s : Orbit) : (update s).dampingFactor = s.dampingFactor := by
  simp only [update, rotateLeft]
  split <;> split <;> rfl

theorem update_autoRotate (s : Orbit) : (update s).autoRotate = s.autoRotate := by
  simp only [update, rotateLeft]
  split <;> split <;> rfl

theorem update_state (s : Orbit) : (update s).state = s.state := by
  simp only [update, rotateLeft]
  split <;> split <;> rfl

/-- The clamp produced on lines 180-181 (range clamp followed by
`makeSafe`) lands in `[minPolarAngle, maxPolarAngle]` whenever that range
is non-degenerate and overlaps the pole-safe band. -/
theorem clamp_phi_mem (minP maxP x : ℚ) (h1 : minP ≤ maxP)
    (h2 : minP ≤ mathPI - sphericalEPS) (h3 : sphericalEPS ≤ maxP) :
    minP ≤ max sphericalEPS (min (mathPI - sphericalEPS) (max minP (min maxP x))) ∧
    max sphericalEPS (min (mathPI - sphericalEPS) (max minP (min maxP x))) ≤ maxP := by
  constructor
  · exact le_trans (le_min h2 (le_max_left _ _)) (le_max_right _ _)
  · exact max_le h3
      (le_trans (min_le_right _ _) (max_le h1 (min_le_left _ _)))

theorem pendingMag_nonneg (s : Orbit) : 0 ≤ pendingMag s :=
  add_nonneg (abs_nonneg _) (abs_nonneg _)

/-- With neither idle auto-rotation injection (auto-rotate off, or a button
held) nor input, one `update` scales both pending components by
`1 - dampingFactor` and touches none of the fields it reads back. -/
theorem update_pending_step (s : Orbit)
    (hdamp : s.enableDamping = true)
    (hrot : s.autoRotate = false ∨ s.state ≠ CState.NONE) :
    (update s).dTheta = s.dTheta * (1 - s.dampingFactor) ∧
    (update s).dPhi = s.dPhi * (1 - s.dampingFactor) := by
  have hcond : (s.autoRotate && s.state == CState.NONE) = false := by
    rcases hrot with h | h
    · simp [h]
    · simp [beq_eq_false_iff_ne.mpr h]
  constructor
  all_goals
    simp only [update, rotateLeft, hcond, Bool.false_eq_true, if_false, hdamp, if_true]

theorem update_pendingMag_step (s : Orbit)
    (hdamp : s.enableDamping = true) (hf1 : s.dampingFactor ≤ 1)
    (hrot : s.autoRotate = false ∨ s.state ≠ CState.NONE) :
    pendingMag (update s) = (1 - s.dampingFactor) * pendingMag s := by
  obtain ⟨h1, h2⟩ := update_pending_step s hdamp hrot
  have hnn : (0 : ℚ) ≤ 1 - s.dampingFactor := by linarith
  simp only [pendingMag, h1, h2, abs_mul, abs_of_nonneg hnn]
  ring

theorem iterUpdate_preserves (s : Orbit) (n : ℕ) :
    (iterUpdate n s).enableDamping = s.enableDamping ∧
    (iterUpdate n s).dampingFactor = s.dampingFactor ∧
    (iterUpdate n s).autoRotate = s.autoRotate ∧
    (iterUpdate n s).state = s.state := by
  induction n with
  | zero => exact ⟨rfl, rfl, rfl, rfl⟩
  | succ n ih =>
    simp only [iterUpdate, update_enableDamping, update_dampingFactor, update_autoRotate,
      update_state]
    exact ih

/-- Claim C5 counterexample: a wheel event with `deltaY = -1` runs
`dollyOut(0.95)`, which multiplies the zoom scale by 0.95 — it does not
divide by it as claimed (the spec has the two directions swapped). -/
theorem c5_wheel_direction_counterexample :
    (wheelDolly (-1) sampleOrbit).scale = 95 / 100 ∧
    (wheelDolly (-1) sampleOrbit).scale ≠ sampleOrbit.scale / (95 / 100) := by
  constructor
  · with_unfolding_all decide
  · with_unfolding_all decide

/-- Claim C5 as amended: negative `deltaY` multiplies the zoom scale by the
dolly factor 0.95 (`dollyOut`), positive `deltaY` divides it by 0.95
(`dollyIn`); the handler then runs `update`. -/
theorem c5_wheel_direction_amended (s : Orbit) (d : ℚ) :
    (d < 0 → (wheelDolly d s).scale = s.scale * (95 / 100)) ∧
    (0 < d → (wheelDolly d s).scale = s.scale / (95 / 100)) ∧
    handleMouseWheel d s = update (wheelDolly d s) := by
  refine ⟨fun hd => ?_, fun hd => ?_, rfl⟩
  · simp only [wheelDolly]
    rw [if_pos hd]
    rfl
  · simp only [wheelDolly]
    rw [if_neg (lt_asymm hd), if_pos hd]
    rfl

/-- Witness for the amended C5 at `deltaY = -1` and `deltaY = 1`. -/
theorem c5_wheel_direction_amended_witness :
    ((-1 : ℚ) < 0 ∧ (wheelDolly (-1) sampleOrbit).scale = sampleOrbit.scale * (95 / 100)) ∧
    ((0 : ℚ) < 1 ∧ (wheelDolly 1 sampleOrbit).scale = sampleOrbit.scale / (95 / 100)) :=
  ⟨⟨by norm_num, (c5_wheel_direction_amended sampleOrbit (-1)).1 (by norm_num)⟩,
   ⟨by norm_num, (c5_wheel_direction_amended sampleOrbit 1).2.1 (by norm_num)⟩⟩

/-- Claim C6 counterexample: with the reference at `(0,0)`, a 100-pixel
horizontal move in a 100-pixel-high viewport accumulates `-π` into the
azimuthal pending delta — not `-2π` as claimed, because line 93 scales the
pixel delta by 0.5 before the `2π/clientHeight` conversion. -/
theorem c6_rotate_accum_counterexample :
    (moveRotateAccum 100 0 sampleOrbit).dTheta = -mathPI ∧
    (moveRotateAccum 100 0 sampleOrbit).dTheta ≠
      sampleOrbit.dTheta -
        2 * mathPI * (100 - sampleOrbit.rotateStart.x) / sampleOrbit.clientHeight := by
  constructor
  · show (0 : ℚ) - 2 * mathPI * ((100 - 0) * (1 / 2)) / 100 = -mathPI
    rw [mathPI]
    norm_num
  · show (0 : ℚ) - 2 * mathPI * ((100 - 0) * (1 / 2)) / 100 ≠
      0 - 2 * mathPI * (100 - 0) / 100
    rw [mathPI]
    norm_num

/-- Claim C6 as amended: a pointer move while Rotating accumulates
`-(2π * (dx/2) / clientHeight) = -(π * dx / clientHeight)` into the
azimuthal pending delta (the pixel delta is halved by the rotate-speed
factor 0.5 on line 93), similarly for the polar delta, and advances the
reference position to the new pointer position. -/
theorem c6_rotate_accum_amended (s : Orbit) (ex ey : ℚ)
    (hen : s.enabled = true) (hst : s.state = CState.ROTATE) :
    applyEvent s (.mouseMove ex ey) = update (moveRotateAccum ex ey s) ∧
    (moveRotateAccum ex ey s).dTheta =
      s.dTheta - mathPI * (ex - s.rotateStart.x) / s.clientHeight ∧
    (moveRotateAccum ex ey s).dPhi =
      s.dPhi - mathPI * (ey - s.rotateStart.y) / s.clientHeight ∧
    (moveRotateAccum ex ey s).rotateStart = ⟨ex, ey⟩ := by
  refine ⟨?_, ?_, ?_, rfl⟩
  · simp [applyEvent, onMouseMove, hen, hst, handleMouseMoveRotate]
  · show s.dTheta - 2 * mathPI * ((ex - s.rotateStart.x) * (1 / 2)) / s.clientHeight = _
    ring
  · show s.dPhi - 2 * mathPI * ((ey - s.rotateStart.y) * (1 / 2)) / s.clientHeight = _
    ring

/-- Witness for the amended C6 at a concrete Rotating state and pointer
move. -/
theorem c6_rotate_accum_amended_witness :
    ({ sampleOrbit with state := CState.ROTATE } : Orbit).enabled = true ∧
    ({ sampleOrbit with state := CState.ROTATE } : Orbit).state = CState.ROTATE ∧
    (moveRotateAccum 100 0 { sampleOrbit with state := CState.ROTATE }).dTheta =
      ({ sampleOrbit with state := CState.ROTATE } : Orbit).dTheta -
        mathPI *
            (100 - ({ sampleOrbit with state := CState.ROTATE } : Orbit).rotateStart.x) /
          ({ sampleOrbit with state := CState.ROTATE } : Orbit).clientHeight :=
  ⟨rfl, rfl, (c6_rotate_accum_amended _ 100 0 rfl rfl).2.1⟩

/-- Claim C7: after every `update()` call following any sequence of pointer
and wheel inputs, the polar angle lies within
`[minPolarAngle, maxPolarAngle]`, for any configuration whose range is
non-degenerate and overlaps the pole-safe band of `makeSafe` (the
application's configuration `[0, π]` does). -/
theorem c7_polar_angle_invariant (s : Orbit) (evs : List OrbitEvent)
    (h1 : (run s evs).minPolarAngle ≤ (run s evs).maxPolarAngle)
    (h2 : (run s evs).minPolarAngle ≤ mathPI - sphericalEPS)
    (h3 : sphericalEPS ≤ (run s evs).maxPolarAngle) :
    (update (run s evs)).minPolarAngle ≤ (update (run s evs)).phi ∧
    (update (run s evs)).phi ≤ (update (run s evs)).maxPolarAngle := by
  rw [update_phi, update_minPolarAngle, update_maxPolarAngle]
  exact clamp_phi_mem _ _ _ h1 h2 h3

/-- Witness for C7 on a concrete input burst (wheel, rotate drag, wheel). -/
theorem c7_polar_angle_invariant_witness :
    ((run sampleOrbit [OrbitEvent.wheel 1, OrbitEvent.mouseDown 0 10 10,
        OrbitEvent.mouseMove 30 50, OrbitEvent.mouseUp,
        OrbitEvent.wheel (-2)]).minPolarAngle ≤
      (run sampleOrbit [OrbitEvent.wheel 1, OrbitEvent.mouseDown 0 10 10,
        OrbitEvent.mouseMove 30 50, OrbitEvent.mouseUp,
        OrbitEvent.wheel (-2)]).maxPolarAngle) ∧
    ((update (run sampleOrbit [OrbitEvent.wheel 1, OrbitEvent.mouseDown 0 10 10,
        OrbitEvent.mouseMove 30 50, OrbitEvent.mouseUp,
        OrbitEvent.wheel (-2)])).minPolarAngle ≤
      (update (run sampleOrbit [OrbitEvent.wheel 1, OrbitEvent.mouseDown 0 10 10,
        OrbitEvent.mouseMove 30 50, OrbitEvent.mouseUp,
        OrbitEvent.wheel (-2)])).phi ∧
      (update (run sampleOrbit [OrbitEvent.wheel 1, OrbitEvent.mouseDown 0 10 10,
        OrbitEvent.mouseMove 30 50, OrbitEvent.mouseUp,
        OrbitEvent.wheel (-2)])).phi ≤
      (update (run sampleOrbit [OrbitEvent.wheel 1, OrbitEvent.mouseDown 0 10 10,
        OrbitEvent.mouseMove 30 50, OrbitEvent.mouseUp,
        OrbitEvent.wheel (-2)])).maxPolarAngle) :=
  ⟨by with_unfolding_all decide,
   c7_polar_angle_invariant sampleOrbit _ (by with_unfolding_all decide)
     (by with_unfolding_all decide) (by with_unfolding_all decide)⟩

/-- Claim C8: after every `update()` call following any sequence of inputs
(in particular wheel events), the orbit radius lies within
`[minDistance, maxDistance]` (for a non-degenerate range, as the
application's `[0.5, 1000]` is), and the zoom scale is reset to 1. -/
theorem c8_radius_invariant (s : Orbit) (evs : List OrbitEvent)
    (h1 : (run s evs).minDistance ≤ (run s evs).maxDistance) :
    ((update (run s evs)).minDistance ≤ (update (run s evs)).radius ∧
      (update (run s evs)).radius ≤ (update (run s evs)).maxDistance) ∧
    (update (run s evs)).scale = 1 := by
  refine ⟨?_, update_scale _⟩
  rw [update_radius, update_minDistance, update_maxDistance]
  exact ⟨le_max_left _ _, max_le h1 (min_le_left _ _)⟩

/-- Witness for C8 on a concrete burst of wheel events. -/
theorem c8_radius_invariant_witness :
    ((run sampleOrbit [OrbitEvent.wheel (-1), OrbitEvent.wheel (-1),
        OrbitEvent.wheel 3]).minDistance ≤
      (run sampleOrbit [OrbitEvent.wheel (-1), OrbitEvent.wheel (-1),
        OrbitEvent.wheel 3]).maxDistance) ∧
    (((update (run sampleOrbit [OrbitEvent.wheel (-1), OrbitEvent.wheel (-1),
        OrbitEvent.wheel 3])).minDistance ≤
      (update (run sampleOrbit [OrbitEvent.wheel (-1), OrbitEvent.wheel (-1),
        OrbitEvent.wheel 3])).radius ∧
      (update (run sampleOrbit [OrbitEvent.wheel (-1), OrbitEvent.wheel (-1),
        OrbitEvent.wheel 3])).radius ≤
      (update (run sampleOrbit [OrbitEvent.wheel (-1), OrbitEvent.wheel (-1),
        OrbitEvent.wheel 3])).maxDistance) ∧
      (update (run sampleOrbit [OrbitEvent.wheel (-1), OrbitEvent.wheel (-1),
        OrbitEvent.wheel 3])).scale = 1) :=
  ⟨by with_unfolding_all decide,
   c8_radius_invariant sampleOrbit _ (by with_unfolding_all decide)⟩

/-- Claim C9 counterexample: in the application's default configuration
(auto-rotate enabled, Idle state, damping on), `update()` itself injects an
azimuthal increment before damping, so starting from a zero pending delta
one update strictly increases its magnitude — the claimed monotone decrease
toward `(0,0)` fails. -/
theorem c9_damping_counterexample :
    sampleOrbit.enableDamping = true ∧
    pendingMag sampleOrbit = 0 ∧
    0 < pendingMag (update sampleOrbit) := by
  refine ⟨rfl, by with_unfolding_all decide, by with_unfolding_all decide⟩

/-- Claim C9 as amended: with damping enabled, `0 < dampingFactor ≤ 1`, no
input, and no idle auto-rotation injection (auto-rotate disabled or a
button held), repeated `update()` calls scale the pending-delta magnitude
by exactly `(1 - dampingFactor)` per call: it is monotonically
non-increasing and converges to `(0, 0)`. -/
theorem c9_damping_decay (s : Orbit)
    (hdamp : s.enableDamping = true)
    (hf0 : 0 < s.dampingFactor) (hf1 : s.dampingFactor ≤ 1)
    (hrot : s.autoRotate = false ∨ s.state ≠ CState.NONE) :
    (∀ n, pendingMag (iterUpdate n s) = (1 - s.dampingFactor) ^ n * pendingMag s) ∧
    (∀ n, pendingMag (iterUpdate (n + 1) s) ≤ pendingMag (iterUpdate n s)) ∧
    (∀ ε : ℚ, 0 < ε → ∃ n, pendingMag (iterUpdate n s) < ε) := by
  have hnn : (0 : ℚ) ≤ 1 - s.dampingFactor := by linarith
  have hlt1 : 1 - s.dampingFactor < 1 := by linarith
  have hform : ∀ n, pendingMag (iterUpdate n s) =
      (1 - s.dampingFactor) ^ n * pendingMag s := by
    intro n
    induction n with
    | zero => simp [iterUpdate]
    | succ n ih =>
      obtain ⟨hd, hf, ha, hs⟩ := iterUpdate_preserves s n
      have step := update_pendingMag_step (iterUpdate n s)
        (by rw [hd, hdamp]) (by rw [hf]; exact hf1)
        (by rcases hrot with h | h
            · exact Or.inl (by rw [ha, h])
            · exact Or.inr (by rw [hs]; exact h))
      calc pendingMag (iterUpdate (n + 1) s)
          = pendingMag (update (iterUpdate n s)) := rfl
        _ = (1 - (iterUpdate n s).dampingFactor) * pendingMag (iterUpdate n s) := step
        _ = (1 - s.dampingFactor) * ((1 - s.dampingFactor) ^ n * pendingMag s) := by
            rw [hf, ih]
        _ = (1 - s.dampingFactor) ^ (n + 1) * pendingMag s := by ring
  refine ⟨hform, fun n => ?_, fun ε hε => ?_⟩
  · rw [hform, hform]
    have hpow : (1 - s.dampingFactor) ^ (n + 1) ≤ (1 - s.dampingFactor) ^ n := by
      calc (1 - s.dampingFactor) ^ (n + 1)
          = (1 - s.dampingFactor) ^ n * (1 - s.dampingFactor) := by ring
        _ ≤ (1 - s.dampingFactor) ^ n * 1 :=
            mul_le_mul_of_nonneg_left (by linarith) (pow_nonneg hnn n)
        _ = (1 - s.dampingFactor) ^ n := by ring
    exact mul_le_mul_of_nonneg_right hpow (pendingMag_nonneg s)
  · have hM1 : (0 : ℚ) < pendingMag s + 1 := by linarith [pendingMag_nonneg s]
    obtain ⟨n, hn⟩ := exists_pow_lt_of_lt_one (div_pos hε hM1) hlt1
    refine ⟨n, ?_⟩
    rw [hform]
    calc (1 - s.dampingFactor) ^ n * pendingMag s
        ≤ (1 - s.dampingFactor) ^ n * (pendingMag s + 1) :=
          mul_le_mul_of_nonneg_left (by linarith) (pow_nonneg hnn n)
      _ < (ε / (pendingMag s + 1)) * (pendingMag s + 1) :=
          mul_lt_mul_of_pos_right hn hM1
      _ = ε := div_mul_cancel₀ ε (ne_of_gt hM1)

/-- Witness for the amended C9 at a concrete held-button state with a
nonzero pending delta. -/
theorem c9_damping_decay_witness :
    ({ sampleOrbit with state := CState.ROTATE, dTheta := 1, dPhi := -2 } : Orbit).enableDamping
        = true ∧
    (0 : ℚ) <
      ({ sampleOrbit with state := CState.ROTATE, dTheta := 1, dPhi := -2 } : Orbit).dampingFactor ∧
    (∃ n, pendingMag
        (iterUpdate n { sampleOrbit with state := CState.ROTATE, dTheta := 1, dPhi := -2 }) <
      1 / 1000) :=
  ⟨rfl, by with_unfolding_all decide,
   (c9_damping_decay _ rfl (by with_unfolding_all decide) (by with_unfolding_all decide)
      (Or.inr (by decide))).2.2 (1 / 1000) (by norm_num)⟩

end OrbitControls

end VisualFot
